/-
Verification of the intent-routing / skill-selection layer of the sparkybot
repository: the skill registry, the keyword classifier, the AI classifier and
the router, shallowly embedded from the TypeScript source (the skill-router
module and core/memory.ts).  Confidences are modelled as rationals, JavaScript
strings as Lean strings, and the three external collaborators (the Supabase
store, the Gemini model call and JSON.parse) as explicit outcome parameters.
JavaScript Array.prototype.sort with a comparator is stable (ECMAScript 2019),
so the in-place sort of the keyword classifier is modelled by a stable
insertion sort over the same descending-confidence comparator.
-/
import Mathlib

namespace SparkyBot

/-- Autonomy level of a skill: `autonomyLevel: 'full' | 'approval_required'`. -/
inductive AutonomyLevel : Type
| full : AutonomyLevel
| approval_required : AutonomyLevel
deriving DecidableEq

/-- The `Skill` interface of the skill-router module. -/
structure Skill : Type where
  id : String
  name : String
  description : String
  triggerPatterns : List String
  requiredInputs : List String
  outputs : List String
  dependencies : List String
  autonomyLevel : AutonomyLevel
  enabled : Bool
deriving DecidableEq

/-- The `RoutingResult` interface.  `extractedParams` is a flat string map and
`reasoning` an optional string, as in the source. -/
structure RoutingResult : Type where
  skillId : String
  confidence : Rat
  extractedParams : List (String × String)
  requiresApproval : Bool
  reasoning : Option String
deriving DecidableEq

/-- The `IntentClassification` interface. -/
structure IntentClassification : Type where
  primaryIntent : String
  confidence : Rat
  entities : List (String × String)
  reasoning : String
deriving DecidableEq

/-- Skill `calendar` of `DEFAULT_SKILLS`, transcribed from the source. -/
def calendarSkill : Skill :=
  ⟨"calendar", "Calendar Management",
   "Manages Google Calendar - scheduling, viewing, modifying events",
   ["schedule", "meeting", "appointment", "calendar", "event",
    "when am i free", "what\x27s on my calendar", "book time",
    "cancel meeting", "reschedule", "availability"],
   ["action", "datetime?", "title?", "attendees?"],
   ["confirmation", "event_details"],
   [], AutonomyLevel.approval_required, true⟩

/-- Skill `email` of `DEFAULT_SKILLS`. -/
def emailSkill : Skill :=
  ⟨"email", "Email Management",
   "Manages Gmail - reading, summarizing, drafting, sending emails",
   ["email", "inbox", "mail", "message from", "send to",
    "reply to", "draft", "unread", "important emails"],
   ["action", "recipient?", "subject?", "body?"],
   ["email_summary", "draft", "confirmation"],
   [], AutonomyLevel.approval_required, true⟩

/-- Skill `market` of `DEFAULT_SKILLS`. -/
def marketSkill : Skill :=
  ⟨"market", "Market Intelligence",
   "Stock and crypto market analysis, portfolio tracking",
   ["stock", "market", "portfolio", "crypto", "bitcoin",
    "price of", "how\x27s the market", "investment", "trading",
    "positions", "gains", "losses", "analysis", "nvda", "aapl", "tsla"],
   ["query_type", "symbols?", "timeframe?"],
   ["market_report", "analysis", "recommendations"],
   [], AutonomyLevel.full, true⟩

/-- Skill `code-exec` of `DEFAULT_SKILLS`. -/
def codeExecSkill : Skill :=
  ⟨"code-exec", "Code Execution",
   "Executes coding tasks via Claude Code",
   ["code", "program", "script", "fix bug", "implement",
    "create function", "refactor", "debug", "deploy",
    "commit", "push", "pull request", "github"],
   ["task_description", "repo?", "files?"],
   ["code_output", "commit_info", "execution_result"],
   [], AutonomyLevel.approval_required, true⟩

/-- Skill `social` of `DEFAULT_SKILLS`. -/
def socialSkill : Skill :=
  ⟨"social", "Social Media Management",
   "Monitors and posts to X (Twitter) and Facebook",
   ["tweet", "post", "twitter", "x.com", "facebook",
    "social media", "mentions", "dm", "direct message",
    "followers", "engagement"],
   ["platform", "action", "content?"],
   ["post_draft", "mentions_summary", "engagement_report"],
   [], AutonomyLevel.approval_required, true⟩

/-- Skill `kanban` of `DEFAULT_SKILLS`. -/
def kanbanSkill : Skill :=
  ⟨"kanban", "Project Management",
   "Kanban board for task and project management",
   ["task", "todo", "project", "kanban", "board",
    "add task", "complete", "move to", "backlog",
    "in progress", "done", "blocked", "lifewave", "vumira"],
   ["action", "task_title?", "status?", "project?"],
   ["task_confirmation", "board_summary"],
   [], AutonomyLevel.full, true⟩

/-- Skill `reminders` of `DEFAULT_SKILLS`. -/
def remindersSkill : Skill :=
  ⟨"reminders", "Reminders",
   "Calendar-linked reminders and notifications",
   ["remind me", "reminder", "don\x27t forget", "alert me",
    "notify me", "set reminder", "remember to"],
   ["reminder_text", "datetime"],
   ["reminder_confirmation"],
   ["calendar"], AutonomyLevel.full, true⟩

/-- Skill `general` of `DEFAULT_SKILLS`: empty trigger patterns, the catch-all. -/
def generalSkill : Skill :=
  ⟨"general", "Executive Assistant (General)",
   "General queries, research, decision support - default handler",
   [],
   ["query"],
   ["response"],
   [], AutonomyLevel.full, true⟩

/-- `DEFAULT_SKILLS`: the hardcoded fallback skill list, in source order. -/
def DEFAULT_SKILLS : List Skill :=
  [calendarSkill, emailSkill, marketSkill, codeExecSkill,
   socialSkill, kanbanSkill, remindersSkill, generalSkill]

/-- One row of the Supabase `skills` table as consumed by
`initializeSkillRegistry`; list-valued columns may be null (`Option`),
mirroring the `|| []` defaulting in the source. -/
structure SkillRow : Type where
  id : String
  name : String
  description : String
  trigger_patterns : Option (List String)
  required_inputs : Option (List String)
  outputs : Option (List String)
  dependencies : Option (List String)
  autonomy_level : AutonomyLevel
  enabled : Bool
deriving DecidableEq

/-- The row-to-skill mapping inside `initializeSkillRegistry`. -/
def rowToSkill (s : SkillRow) : Skill :=
  ⟨s.id, s.name, s.description, s.trigger_patterns.getD [],
   s.required_inputs.getD [], s.outputs.getD [], s.dependencies.getD [],
   s.autonomy_level, s.enabled⟩

/-- Outcome of the one Supabase fetch inside `initializeSkillRegistry`:
either rows are returned, or the query reported an error, or it threw,
or Supabase is not configured at all. -/
inductive FetchOutcome : Type
| ok : List SkillRow → FetchOutcome
| err : FetchOutcome
| thrown : FetchOutcome
| notConfigured : FetchOutcome
deriving DecidableEq

/-- `initializeSkillRegistry`: on a successful non-empty fetch the mapped rows
replace the registry; on an error result, a thrown exception, an empty result
or an unconfigured store, the registry is set to `DEFAULT_SKILLS`.  The
function is total: no outcome raises. -/
def initializeSkillRegistry : FetchOutcome → List Skill
| FetchOutcome.ok rows => if rows = [] then DEFAULT_SKILLS else rows.map rowToSkill
| FetchOutcome.err => DEFAULT_SKILLS
| FetchOutcome.thrown => DEFAULT_SKILLS
| FetchOutcome.notConfigured => DEFAULT_SKILLS

/-- `getSkill`: `SKILL_REGISTRY.find(s => s.id === skillId)`. -/
def getSkill (reg : List Skill) (skillId : String) : Option Skill :=
  reg.find? (fun s => s.id == skillId)

/-- `getEnabledSkills`: `SKILL_REGISTRY.filter(s => s.enabled)`. -/
def getEnabledSkills (reg : List Skill) : List Skill :=
  reg.filter (fun s => s.enabled)

/-- `needle` occurs as a contiguous substring of `hay`
(JavaScript `String.prototype.includes`). -/
def containsSeq (needle : List Char) : List Char → Bool
| [] => List.isPrefixOf needle []
| c :: cs => List.isPrefixOf needle (c :: cs) || containsSeq needle cs

/-- `lowerMessage.includes(pattern.toLowerCase())`: both sides lowercased
(the spec declares trigger patterns to be lowercase already, in which case
lowercasing the pattern is the identity), substring containment. -/
def patternMatches (msg pat : String) : Bool :=
  containsSeq (pat.toList.map Char.toLower) (msg.toList.map Char.toLower)

/-- JavaScript `Math.min` on two numbers. -/
def mathMin (a b : Rat) : Rat := if a ≤ b then a else b

/-- The exact rational value of the JavaScript quotient `m / t` of two
naturals (kernel-evaluable formulation; `Rat.div` is irreducible). -/
def natRatio (m t : Nat) : Rat := mkRat m t

/-- Rational addition in a kernel-evaluable formulation (the textbook
numerator/denominator formula; `Rat.add` is irreducible). -/
def ratAdd (a b : Rat) : Rat := mkRat (a.num * b.den + b.num * a.den) (a.den * b.den)

/-- The literal `0.5`. -/
def half : Rat := mkRat 1 2

/-- `matchedPatterns.length`: how many of the trigger patterns of `s` occur
in the lowercased message. -/
def matchedCount (msg : String) (s : Skill) : Nat :=
  (s.triggerPatterns.filter (fun p => patternMatches msg p)).length

/-- `Math.min(matchedPatterns.length / skill.triggerPatterns.length + 0.5, 1)`. -/
def keywordConfidence (msg : String) (s : Skill) : Rat :=
  mathMin (ratAdd (natRatio (matchedCount msg s) s.triggerPatterns.length) half) 1

/-- The loop body of `classifyIntentKeyword`: a skill contributes a candidate
result exactly when it is enabled, is not the `general` skill, and at least
one of its trigger patterns occurs in the lowercased message. -/
def skillCandidate (msg : String) (s : Skill) : Option RoutingResult :=
  if s.enabled = true ∧ s.id ≠ "general" then
    if matchedCount msg s = 0 then none
    else
      some ⟨s.id, keywordConfidence msg s, [],
            decide (s.autonomyLevel = AutonomyLevel.approval_required),
            none⟩
  else none

/-- Stable descending insertion: an element moves past `y` only when its
confidence is strictly greater, so equal confidences keep their original
relative order — the behavior of the stable JavaScript
`sort((a, b) => b.confidence - a.confidence)`. -/
def insertDesc (x : RoutingResult) : List RoutingResult → List RoutingResult
| [] => [x]
| y :: ys => if y.confidence ≤ x.confidence then x :: y :: ys else y :: insertDesc x ys

/-- Stable sort by descending confidence. -/
def sortDesc : List RoutingResult → List RoutingResult
| [] => []
| x :: xs => insertDesc x (sortDesc xs)

/-- The synthetic fallback result pushed when no skill matched. -/
def kwFallbackResult : RoutingResult := ⟨"general", 1, [], false, none⟩

/-- `classifyIntentKeyword`: collect one candidate per matching enabled
non-general skill in registry order, sort stably by descending confidence,
and if nothing matched return the single synthetic `general` result. -/
def classifyIntentKeyword (reg : List Skill) (msg : String) : List RoutingResult :=
  let sorted := sortDesc (reg.filterMap (skillCandidate msg))
  if sorted = [] then [kwFallbackResult] else sorted

/-- The opening curly brace character. -/
def obrace : Char := Char.ofNat 123

/-- The closing curly brace character. -/
def cbrace : Char := Char.ofNat 125

/-- Drop characters until the first opening brace (inclusive scan start of the
greedy JSON regex of `classifyIntentWithAI`). -/
def dropUntilBrace : List Char → List Char
| [] => []
| c :: cs => if c = obrace then c :: cs else dropUntilBrace cs

/-- Keep the prefix of `cs` up to and including its last closing brace;
empty when `cs` has no closing brace. -/
def takeToLastClose (cs : List Char) : List Char :=
  (cs.reverse.dropWhile (fun d => d != cbrace)).reverse

/-- The match of the greedy regex over the raw model response: the substring
from the first opening brace through the last closing brace, or `none` when
no such pair exists.  Note this is greedy, not balanced. -/
def extractBraced (s : List Char) : Option (List Char) :=
  match dropUntilBrace s with
  | [] => none
  | c :: cs =>
    if takeToLastClose cs = [] then none else some (c :: takeToLastClose cs)

/-- Modelled from the spec: scanner for the words "the first balanced curly
JSON object" of section 4.3 — not present in the source, which uses the
greedy regex `extractBraced` instead; used to compare the two.  Tracks brace
depth from an already-consumed opening brace held in `acc`. -/
def scanBalanced : List Char → Nat → List Char → Option (List Char)
| [], _, _ => none
| c :: cs, d, acc =>
  if c = obrace then scanBalanced cs (d + 1) (c :: acc)
  else if c = cbrace then
    if d = 1 then some ((c :: acc).reverse)
    else scanBalanced cs (d - 1) (c :: acc)
  else scanBalanced cs d (c :: acc)

/-- Modelled from the spec: "the first balanced curly JSON object" located in
a response — starts at the first opening brace and ends when the brace depth
returns to zero. -/
def firstBalancedObj (s : List Char) : Option (List Char) :=
  match dropUntilBrace s with
  | [] => none
  | c :: cs => scanBalanced cs 1 [c]

/-- A JSON field as seen by the JavaScript `||` defaulting: missing
(`undefined`), `null`, or a present value of the expected type. -/
inductive JsField (α : Type) : Type
| absent : JsField α
| null : JsField α
| val : α → JsField α
deriving DecidableEq

/-- The object produced by `JSON.parse` on the extracted substring, with the
four fields the classifier reads. -/
structure ParsedJson : Type where
  primaryIntent : JsField String
  confidence : JsField Rat
  entities : JsField (List (String × String))
  reasoning : JsField String
deriving DecidableEq

/-- JavaScript `f || d` for a string field: absent, null and the empty string
are falsy. -/
def jsOrStr : JsField String → String → String
| JsField.val s, d => if s = "" then d else s
| _, d => d

/-- JavaScript `f || d` for a numeric field: absent, null and 0 are falsy. -/
def jsOrNum : JsField Rat → Rat → Rat
| JsField.val q, d => if q = 0 then d else q
| _, d => d

/-- JavaScript `f || d` for an object field: any present object is truthy. -/
def jsOrObj {α : Type} : JsField α → α → α
| JsField.val a, _ => a
| _, d => d

/-- The field normalization applied to the parsed JSON in
`classifyIntentWithAI`. -/
def normalizeParsed (p : ParsedJson) : IntentClassification :=
  ⟨jsOrStr p.primaryIntent "general",
   jsOrNum p.confidence half,
   jsOrObj p.entities [],
   jsOrStr p.reasoning ""⟩

/-- Outcome of the Gemini call: the call threw (network, auth, quota), or it
returned a raw text response. -/
inductive AIOutcome : Type
| throws : AIOutcome
| responds : List Char → AIOutcome

/-- The catch-block / no-match fallback of `classifyIntentWithAI`: the top
keyword result with the `||` defaults of the source
(`keywordResult[0]?.skillId || general`, `?.confidence || 0.5`). -/
def keywordFallbackClassification (reg : List Skill) (msg : String) : IntentClassification :=
  match (classifyIntentKeyword reg msg).head? with
  | none => ⟨"general", half, [], "Fallback to keyword matching"⟩
  | some r =>
    ⟨if r.skillId = "" then "general" else r.skillId,
     if r.confidence = 0 then half else r.confidence,
     [], "Fallback to keyword matching"⟩

/-- `classifyIntentWithAI`: on a thrown call, an unlocatable JSON object, or a
`JSON.parse` failure (the caught exception), degrade to the keyword fallback;
otherwise normalize the parsed object.  `jp` models `JSON.parse` restricted
to the expected shape, `none` meaning the parse threw. -/
def classifyIntentWithAI (reg : List Skill) (msg : String)
    (ai : AIOutcome) (jp : List Char → Option ParsedJson) : IntentClassification :=
  match ai with
  | AIOutcome.throws => keywordFallbackClassification reg msg
  | AIOutcome.responds text =>
    match extractBraced text with
    | none => keywordFallbackClassification reg msg
    | some sub =>
      match jp sub with
      | none => keywordFallbackClassification reg msg
      | some parsed => normalizeParsed parsed

/-- Outcome of the one audit-log insert of `logAutonomyAction`. -/
inductive LogOutcome : Type
| ok : LogOutcome
| insertError : LogOutcome
| notConfigured : LogOutcome
deriving DecidableEq

/-- One audit-log record as built by `routeMessage`. -/
structure AuditEntry : Type where
  skill_id : String
  action_type : String
  message_preview : String
  confidence : Rat
  reasoning : Option String
deriving DecidableEq

/-- `logAutonomyAction` (core/memory.ts): inserts when configured; an insert
error is only logged to the console.  Total — it never raises, so it returns
the record written, or `none` when nothing was written. -/
def logAutonomyAction (o : LogOutcome) (e : AuditEntry) : Option AuditEntry :=
  match o with
  | LogOutcome.ok => some e
  | LogOutcome.insertError => none
  | LogOutcome.notConfigured => none

/-- The lazy load-if-empty at the top of `routeMessage`. -/
def effectiveRegistry (reg0 : List Skill) (fetch : FetchOutcome) : List Skill :=
  if reg0 = [] then initializeSkillRegistry fetch else reg0

/-- The classification step of `routeMessage`: the AI classifier when
`useAI && genAI`, else the top keyword result (the keyword list is provably
never empty; `head?` with the source literals as the impossible default). -/
def classificationOf (reg : List Skill) (msg : String) (useAI genAI : Bool)
    (ai : AIOutcome) (jp : List Char → Option ParsedJson) : IntentClassification :=
  if useAI && genAI then classifyIntentWithAI reg msg ai jp
  else
    match (classifyIntentKeyword reg msg).head? with
    | none => ⟨"general", 1, [], "Keyword matching"⟩
    | some r => ⟨r.skillId, r.confidence, [], "Keyword matching"⟩

/-- What one `routeMessage` call produces: the returned `RoutingResult`, the
registry in effect, and the audit record written (if any). -/
structure RouteOutput : Type where
  result : RoutingResult
  registry : List Skill
  log : Option AuditEntry
deriving DecidableEq

/-- `routeMessage`: ensure the registry is loaded, classify, resolve the
winning id against the registry for the approval flag
(`skill?.autonomyLevel === approval_required` — false when the id resolves to
nothing), log one audit record, return the single result. -/
def routeMessage (reg0 : List Skill) (fetch : FetchOutcome) (logO : LogOutcome)
    (msg chatId : String) (genAI useAI : Bool)
    (ai : AIOutcome) (jp : List Char → Option ParsedJson) : RouteOutput :=
  let reg := effectiveRegistry reg0 fetch
  let cls := classificationOf reg msg useAI genAI ai jp
  let skill := getSkill reg cls.primaryIntent
  let result : RoutingResult :=
    ⟨cls.primaryIntent, cls.confidence, cls.entities,
     decide (skill.map Skill.autonomyLevel = some AutonomyLevel.approval_required),
     some cls.reasoning⟩
  let log := logAutonomyAction logO
    ⟨result.skillId, "route", msg.take 100, result.confidence, result.reasoning⟩
  ⟨result, reg, log⟩

/-! ### Basic facts about the rational helpers -/

theorem natRatio_eq (m t : Nat) : natRatio m t = (m : Rat) / (t : Rat) := by
  rw [natRatio, Rat.mkRat_eq_divInt, Rat.divInt_eq_div]
  push_cast
  rfl

theorem ratAdd_eq (a b : Rat) : ratAdd a b = a + b := (Rat.add_def' a b).symm

theorem half_eq : half = 1 / 2 := by
  rw [half, Rat.mkRat_eq_divInt, Rat.divInt_eq_div]
  norm_num

theorem mathMin_eq (a b : Rat) : mathMin a b = min a b := by
  by_cases h : a ≤ b <;> simp [mathMin, min_def, h]

/-- The confidence formula of the keyword classifier, in standard notation. -/
theorem confidence_formula (m t : Nat) :
    mathMin (ratAdd (natRatio m t) half) 1 = min ((m : Rat) / (t : Rat) + 1 / 2) 1 := by
  rw [ratAdd_eq, natRatio_eq, half_eq, mathMin_eq]

theorem confidence_ge_half (m t : Nat) :
    (1 : Rat) / 2 ≤ mathMin (ratAdd (natRatio m t) half) 1 := by
  rw [confidence_formula]
  refine le_min ?_ (by norm_num)
  have h0 : (0 : Rat) ≤ (m : Rat) / (t : Rat) :=
    div_nonneg (by positivity) (by positivity)
  linarith

theorem confidence_le_one (m t : Nat) :
    mathMin (ratAdd (natRatio m t) half) 1 ≤ 1 := by
  rw [confidence_formula]
  exact min_le_right _ _

/-! ### The stable descending insertion sort -/

theorem insertDesc_perm (x : RoutingResult) (l : List RoutingResult) :
    List.Perm (insertDesc x l) (x :: l) := by
  induction l with
  | nil => exact List.Perm.refl _
  | cons y ys ih =>
    rw [insertDesc]
    by_cases h : y.confidence ≤ x.confidence
    · rw [if_pos h]
    · rw [if_neg h]
      exact (ih.cons y).trans (List.Perm.swap x y ys)

theorem sortDesc_perm (l : List RoutingResult) : List.Perm (sortDesc l) l := by
  induction l with
  | nil => exact List.Perm.refl _
  | cons x xs ih => exact (insertDesc_perm x (sortDesc xs)).trans (ih.cons x)

theorem mem_insertDesc {z x : RoutingResult} {l : List RoutingResult} :
    z ∈ insertDesc x l ↔ z = x ∨ z ∈ l := by
  rw [(insertDesc_perm x l).mem_iff, List.mem_cons]

theorem insertDesc_pairwise (x : RoutingResult) (l : List RoutingResult)
    (h : l.Pairwise (fun a b => b.confidence ≤ a.confidence)) :
    (insertDesc x l).Pairwise (fun a b => b.confidence ≤ a.confidence) := by
  induction l with
  | nil => simp [insertDesc]
  | cons y ys ih =>
    rw [List.pairwise_cons] at h
    obtain ⟨hy, hys⟩ := h
    rw [insertDesc]
    by_cases hc : y.confidence ≤ x.confidence
    · rw [if_pos hc]
      refine List.Pairwise.cons ?_ (List.Pairwise.cons hy hys)
      intro z hz
      rcases List.mem_cons.mp hz with rfl | hz
      · exact hc
      · exact le_trans (hy z hz) hc
    · rw [if_neg hc]
      refine List.Pairwise.cons ?_ (ih hys)
      intro z hz
      rcases mem_insertDesc.mp hz with rfl | hz
      · exact le_of_lt (lt_of_not_le hc)
      · exact hy z hz

theorem sortDesc_pairwise (l : List RoutingResult) :
    (sortDesc l).Pairwise (fun a b => b.confidence ≤ a.confidence) := by
  induction l with
  | nil => simp [sortDesc]
  | cons x xs ih => exact insertDesc_pairwise x (sortDesc xs) ih

theorem filter_insertDesc (x : RoutingResult) (l : List RoutingResult) (c : Rat) :
    (insertDesc x l).filter (fun r => decide (r.confidence = c))
      = if x.confidence = c
        then x :: l.filter (fun r => decide (r.confidence = c))
        else l.filter (fun r => decide (r.confidence = c)) := by
  induction l with
  | nil => by_cases h : x.confidence = c <;> simp [insertDesc, List.filter, h]
  | cons y ys ih =>
    rw [insertDesc]
    by_cases hc : y.confidence ≤ x.confidence
    · rw [if_pos hc]
      by_cases hx : x.confidence = c <;> simp [List.filter_cons, hx]
    · rw [if_neg hc]
      by_cases hy : y.confidence = c
      · have hx : ¬ x.confidence = c := by
          intro hx
          exact absurd (hx.trans hy.symm ▸ le_refl y.confidence) hc
        rw [List.filter_cons_of_pos (by simp [hy]), ih, if_neg hx,
          List.filter_cons_of_pos (by simp [hy]), if_neg hx]
      · rw [List.filter_cons_of_neg (by simp [hy]), ih,
          List.filter_cons_of_neg (by simp [hy])]

theorem filter_sortDesc (l : List RoutingResult) (c : Rat) :
    (sortDesc l).filter (fun r => decide (r.confidence = c))
      = l.filter (fun r => decide (r.confidence = c)) := by
  induction l with
  | nil => rfl
  | cons x xs ih =>
    rw [sortDesc, filter_insertDesc, ih]
    by_cases hx : x.confidence = c
    · rw [if_pos hx, List.filter_cons_of_pos (by simp [hx])]
    · rw [if_neg hx, List.filter_cons_of_neg (by simp [hx])]

/-! ### Keyword classifier: helper characterizations -/

theorem skillCandidate_of_match (msg : String) (s : Skill)
    (hen : s.enabled = true) (hid : s.id ≠ "general") (hm : matchedCount msg s ≠ 0) :
    skillCandidate msg s
      = some ⟨s.id, keywordConfidence msg s, [],
              decide (s.autonomyLevel = AutonomyLevel.approval_required), none⟩ := by
  rw [skillCandidate, if_pos ⟨hen, hid⟩, if_neg hm]

/-- Claim C2: a message in which no enabled non-general skill has a matching
trigger pattern is classified as the single synthetic result: the `general`
skill at confidence 1. -/
theorem keyword_no_match_returns_general (reg : List Skill) (msg : String)
    (h : ∀ s ∈ reg, s.enabled = true → s.id ≠ "general" →
      ∀ p ∈ s.triggerPatterns, patternMatches msg p = false) :
    classifyIntentKeyword reg msg = [kwFallbackResult]
    ∧ kwFallbackResult.skillId = "general" ∧ kwFallbackResult.confidence = 1 := by
  have hcand : reg.filterMap (skillCandidate msg) = [] := by
    rw [List.filterMap_eq_nil_iff]
    intro s hs
    rw [skillCandidate]
    by_cases h1 : s.enabled = true ∧ s.id ≠ "general"
    · rw [if_pos h1]
      have hf : s.triggerPatterns.filter (fun p => patternMatches msg p) = [] := by
        rw [List.filter_eq_nil_iff]
        intro p hp
        simp [h s hs h1.1 h1.2 p hp]
      rw [if_pos (by simp [matchedCount, hf])]
    · rw [if_neg h1]
  refine ⟨?_, rfl, rfl⟩
  simp [classifyIntentKeyword, hcand, sortDesc]

/-- Witness for C2: neither a small-talk message nor the empty message
triggers any default skill, so both classify to the general fallback. -/
theorem keyword_no_match_returns_general_witness :
    (classifyIntentKeyword DEFAULT_SKILLS "Hello, how are you?" = [kwFallbackResult]
      ∧ kwFallbackResult.skillId = "general" ∧ kwFallbackResult.confidence = 1)
    ∧ (classifyIntentKeyword DEFAULT_SKILLS "" = [kwFallbackResult]
      ∧ kwFallbackResult.skillId = "general" ∧ kwFallbackResult.confidence = 1) :=
  ⟨keyword_no_match_returns_general DEFAULT_SKILLS "Hello, how are you?" (by decide),
   keyword_no_match_returns_general DEFAULT_SKILLS "" (by decide)⟩

/-- Claim C3: an enabled non-general skill with at least one matching trigger
pattern appears among the keyword results with confidence exactly
`min(matchedCount / totalPatternCount + 0.5, 1)`, a value in `[0.5, 1]`. -/
theorem keyword_match_included (reg : List Skill) (msg : String) (s : Skill)
    (hs : s ∈ reg) (hen : s.enabled = true) (hid : s.id ≠ "general")
    (hm : matchedCount msg s ≠ 0) :
    (classifyIntentKeyword reg msg).any (fun r =>
        decide (r.skillId = s.id ∧ r.confidence = keywordConfidence msg s)) = true
    ∧ keywordConfidence msg s
        = min ((matchedCount msg s : Rat) / (s.triggerPatterns.length : Rat) + 1 / 2) 1
    ∧ (1 : Rat) / 2 ≤ keywordConfidence msg s
    ∧ keywordConfidence msg s ≤ 1 := by
  have hc := skillCandidate_of_match msg s hen hid hm
  have hmem : (⟨s.id, keywordConfidence msg s, [],
      decide (s.autonomyLevel = AutonomyLevel.approval_required), none⟩ : RoutingResult)
      ∈ reg.filterMap (skillCandidate msg) :=
    List.mem_filterMap.mpr ⟨s, hs, hc⟩
  have hmem2 := (sortDesc_perm (reg.filterMap (skillCandidate msg))).mem_iff.mpr hmem
  have hne : sortDesc (reg.filterMap (skillCandidate msg)) ≠ [] :=
    List.ne_nil_of_mem hmem2
  refine ⟨?_, confidence_formula _ _, confidence_ge_half _ _, confidence_le_one _ _⟩
  rw [classifyIntentKeyword]
  simp only [if_neg hne]
  rw [List.any_eq_true]
  exact ⟨_, hmem2, by simp⟩

/-- Witness for C3: "price of nvda" hits two of the sixteen market patterns. -/
theorem keyword_match_included_witness :
    (classifyIntentKeyword DEFAULT_SKILLS "price of nvda").any (fun r =>
        decide (r.skillId = marketSkill.id
          ∧ r.confidence = keywordConfidence "price of nvda" marketSkill)) = true
    ∧ keywordConfidence "price of nvda" marketSkill
        = min ((matchedCount "price of nvda" marketSkill : Rat)
            / (marketSkill.triggerPatterns.length : Rat) + 1 / 2) 1
    ∧ (1 : Rat) / 2 ≤ keywordConfidence "price of nvda" marketSkill
    ∧ keywordConfidence "price of nvda" marketSkill ≤ 1 :=
  keyword_match_included DEFAULT_SKILLS "price of nvda" marketSkill
    (by decide) (by decide) (by decide) (by decide)

/-- Claim C9: the synthetic fallback result always reports
`requiresApproval = false`, regardless of how the registry configures the
`general` skill. -/
theorem keyword_fallback_no_approval (reg : List Skill) (msg : String)
    (h : reg.filterMap (skillCandidate msg) = []) :
    (classifyIntentKeyword reg msg).map RoutingResult.requiresApproval = [false] := by
  simp [classifyIntentKeyword, h, sortDesc, kwFallbackResult]

/-- A registry whose `general` skill is configured `approval_required`. -/
def approvalGeneralRegistry : List Skill :=
  [⟨"general", "Executive Assistant (General)",
    "General queries, research, decision support - default handler",
    [], ["query"], ["response"], [], AutonomyLevel.approval_required, true⟩]

/-- Witness for C9: even with `general` configured `approval_required`, the
fallback result still reports `requiresApproval = false`. -/
theorem keyword_fallback_no_approval_witness :
    (getSkill approvalGeneralRegistry "general").map Skill.autonomyLevel
        = some AutonomyLevel.approval_required
    ∧ (classifyIntentKeyword approvalGeneralRegistry "hi").map
        RoutingResult.requiresApproval = [false] :=
  ⟨by decide, keyword_fallback_no_approval approvalGeneralRegistry "hi" (by decide)⟩

/-- Claim C7: the keyword classifier output is sorted by descending
confidence, and (when any skill matched) the results at each fixed
confidence value are exactly the candidates at that confidence in registry
iteration order — the stable-sort property. -/
theorem keyword_sorted_stable (reg : List Skill) (msg : String) :
    (classifyIntentKeyword reg msg).Pairwise (fun a b => b.confidence ≤ a.confidence)
    ∧ (reg.filterMap (skillCandidate msg) ≠ [] → ∀ c : Rat,
        (classifyIntentKeyword reg msg).filter (fun r => decide (r.confidence = c))
          = (reg.filterMap (skillCandidate msg)).filter
              (fun r => decide (r.confidence = c))) := by
  constructor
  · rw [classifyIntentKeyword]
    by_cases hnil : sortDesc (reg.filterMap (skillCandidate msg)) = []
    · simp [hnil]
    · simp only [if_neg hnil]
      exact sortDesc_pairwise _
  · intro hne c
    have hnil : sortDesc (reg.filterMap (skillCandidate msg)) ≠ [] := by
      intro h0
      have hp : List.Perm (reg.filterMap (skillCandidate msg)) [] := by
        rw [← h0]
        exact (sortDesc_perm _).symm
      exact hne hp.eq_nil
    rw [classifyIntentKeyword]
    simp only [if_neg hnil]
    exact filter_sortDesc _ c

/-- Witness for C7: "nvda" produces exactly the market candidate, and the
output filtered at its confidence 9/16 equals the candidate list so
filtered. -/
theorem keyword_sorted_stable_witness :
    (classifyIntentKeyword DEFAULT_SKILLS "nvda").filter
        (fun r => decide (r.confidence = mkRat 9 16))
      = (DEFAULT_SKILLS.filterMap (skillCandidate "nvda")).filter
          (fun r => decide (r.confidence = mkRat 9 16)) :=
  (keyword_sorted_stable DEFAULT_SKILLS "nvda").2 (by decide) (mkRat 9 16)

/-- Claim C4: on a fetch error, a thrown exception or an empty result, the
registry load substitutes the fixed built-in default list (the function is
total, so no outcome raises), after which the enabled set is non-empty and
contains the `general` skill. -/
theorem registry_load_failure_defaults (o : FetchOutcome)
    (h : o = FetchOutcome.err ∨ o = FetchOutcome.thrown ∨ o = FetchOutcome.ok []) :
    initializeSkillRegistry o = DEFAULT_SKILLS
    ∧ DEFAULT_SKILLS.map Skill.id
        = ["calendar", "email", "market", "code-exec",
           "social", "kanban", "reminders", "general"]
    ∧ getEnabledSkills (initializeSkillRegistry o) ≠ []
    ∧ (getEnabledSkills (initializeSkillRegistry o)).any
        (fun s => s.id == "general") = true := by
  rcases h with rfl | rfl | rfl <;> refine ⟨by decide, by decide, by decide, by decide⟩

/-- Witness for C4: the error outcome. -/
theorem registry_load_failure_defaults_witness :
    initializeSkillRegistry FetchOutcome.err = DEFAULT_SKILLS
    ∧ DEFAULT_SKILLS.map Skill.id
        = ["calendar", "email", "market", "code-exec",
           "social", "kanban", "reminders", "general"]
    ∧ getEnabledSkills (initializeSkillRegistry FetchOutcome.err) ≠ []
    ∧ (getEnabledSkills (initializeSkillRegistry FetchOutcome.err)).any
        (fun s => s.id == "general") = true :=
  registry_load_failure_defaults FetchOutcome.err (Or.inl rfl)

/-- Claim C8: the audit-log write happens after the routing result is fully
built and its outcome (`logAutonomyAction` is total and never raises) does
not flow into the returned result: any log outcome yields the same
`RoutingResult` as the successful write. -/
theorem route_log_failure_invisible (reg0 : List Skill) (fetch : FetchOutcome)
    (o : LogOutcome) (msg chatId : String) (genAI useAI : Bool)
    (ai : AIOutcome) (jp : List Char → Option ParsedJson) :
    (routeMessage reg0 fetch o msg chatId genAI useAI ai jp).result
      = (routeMessage reg0 fetch LogOutcome.ok msg chatId genAI useAI ai jp).result
    ∧ (routeMessage reg0 fetch LogOutcome.insertError msg chatId genAI useAI ai jp).log
      = none :=
  ⟨rfl, rfl⟩

/-- Claim C10: the `||` defaulting of `classifyIntentWithAI` — a falsy
present `confidence` (0 or null) is replaced by 0.5; non-falsy present
values of the four fields are preserved; absent fields default to
`general`, 0.5, the empty map and the empty string. -/
theorem ai_normalize_defaults (p : ParsedJson) :
    ((p.confidence = JsField.val 0 ∨ p.confidence = JsField.null) →
      (normalizeParsed p).confidence = half)
    ∧ (∀ q : Rat, p.confidence = JsField.val q → q ≠ 0 →
        (normalizeParsed p).confidence = q)
    ∧ (∀ s : String, p.primaryIntent = JsField.val s → s ≠ "" →
        (normalizeParsed p).primaryIntent = s)
    ∧ (∀ e : List (String × String), p.entities = JsField.val e →
        (normalizeParsed p).entities = e)
    ∧ (∀ s : String, p.reasoning = JsField.val s → s ≠ "" →
        (normalizeParsed p).reasoning = s)
    ∧ (p.primaryIntent = JsField.absent → (normalizeParsed p).primaryIntent = "general")
    ∧ (p.confidence = JsField.absent → (normalizeParsed p).confidence = half)
    ∧ (p.entities = JsField.absent → (normalizeParsed p).entities = [])
    ∧ (p.reasoning = JsField.absent → (normalizeParsed p).reasoning = "")
    ∧ half = 1 / 2 := by
  refine ⟨?_, ?_, ?_, ?_, ?_, ?_, ?_, ?_, ?_, half_eq⟩
  · rintro (h | h) <;> simp [normalizeParsed, h, jsOrNum]
  · intro q h hq
    simp [normalizeParsed, h, jsOrNum, hq]
  · intro t h ht
    simp [normalizeParsed, h, jsOrStr, ht]
  · intro e h
    simp [normalizeParsed, h, jsOrObj]
  · intro t h ht
    simp [normalizeParsed, h, jsOrStr, ht]
  · intro h
    simp [normalizeParsed, h, jsOrStr]
  · intro h
    simp [normalizeParsed, h, jsOrNum]
  · intro h
    simp [normalizeParsed, h, jsOrObj]
  · intro h
    simp [normalizeParsed, h, jsOrStr]

/-- Witness for C10: a parsed object with `confidence` 0 normalizes to 0.5,
and one with a non-falsy confidence keeps it. -/
theorem ai_normalize_defaults_witness :
    (normalizeParsed ⟨JsField.val "market", JsField.val 0,
        JsField.absent, JsField.absent⟩).confidence = half
    ∧ (normalizeParsed ⟨JsField.absent, JsField.val 1,
        JsField.absent, JsField.absent⟩).confidence = 1
    ∧ (normalizeParsed ⟨JsField.absent, JsField.val 1,
        JsField.absent, JsField.absent⟩).primaryIntent = "general" :=
  ⟨(ai_normalize_defaults ⟨JsField.val "market", JsField.val 0,
      JsField.absent, JsField.absent⟩).1 (Or.inl rfl),
   (ai_normalize_defaults ⟨JsField.absent, JsField.val 1,
      JsField.absent, JsField.absent⟩).2.1 1 rfl one_ne_zero,
   (ai_normalize_defaults ⟨JsField.absent, JsField.val 1,
      JsField.absent, JsField.absent⟩).2.2.2.2.2.1 rfl⟩

/-! ### The JSON-extraction step of the AI classifier -/

theorem dropUntilBrace_append (pre t : List Char) (h : obrace ∉ pre) :
    dropUntilBrace (pre ++ t) = dropUntilBrace t := by
  induction pre with
  | nil => rfl
  | cons c cs ih =>
    have hc : c ≠ obrace := fun hc => h (hc ▸ List.mem_cons_self c cs)
    rw [List.cons_append, dropUntilBrace, if_neg hc]
    exact ih (fun hm => h (List.mem_cons_of_mem c hm))

theorem dropUntilBrace_cons_brace (t : List Char) :
    dropUntilBrace (obrace :: t) = obrace :: t := by
  rw [dropUntilBrace, if_pos rfl]

theorem dropWhile_append_all {p : Char → Bool} (l l' : List Char)
    (h : ∀ a ∈ l, p a = true) :
    List.dropWhile p (l ++ l') = List.dropWhile p l' := by
  induction l with
  | nil => rfl
  | cons c cs ih =>
    rw [List.cons_append, List.dropWhile_cons, if_pos (h c (List.mem_cons_self c cs))]
    exact ih (fun a ha => h a (List.mem_cons_of_mem c ha))

theorem takeToLastClose_append (mid post : List Char) (hpost : cbrace ∉ post) :
    takeToLastClose (mid ++ cbrace :: post) = mid ++ [cbrace] := by
  rw [takeToLastClose, List.reverse_append, List.reverse_cons, List.append_assoc]
  rw [dropWhile_append_all post.reverse ([cbrace] ++ mid.reverse)
    (fun a ha => by
      have : a ≠ cbrace := fun hc => hpost (hc ▸ List.mem_reverse.mp ha)
      simp [this])]
  rw [List.singleton_append, List.dropWhile_cons]
  simp

theorem scanBalanced_flat (mid : List Char) (post acc : List Char)
    (h : ∀ c ∈ mid, c ≠ obrace ∧ c ≠ cbrace) :
    scanBalanced (mid ++ cbrace :: post) 1 acc
      = some (acc.reverse ++ (mid ++ [cbrace])) := by
  induction mid generalizing acc with
  | nil =>
    rw [List.nil_append, scanBalanced]
    rw [if_neg (by decide), if_pos rfl, if_pos rfl]
    simp
  | cons c cs ih =>
    have hc := h c (List.mem_cons_self c cs)
    rw [List.cons_append, scanBalanced, if_neg hc.1, if_neg hc.2]
    rw [ih (c :: acc) (fun d hd => h d (List.mem_cons_of_mem c hd))]
    simp

/-- Claim C6 (amended): when the first opening brace of the response opens
the JSON object, the object contains no nested braces, and no closing brace
occurs after it (the common prose / code-fence shape), the greedy
first-brace-to-last-brace extraction yields exactly the first balanced JSON
object and all surrounding text is ignored. -/
theorem ai_extract_embedded (pre mid post : List Char)
    (hpre : obrace ∉ pre)
    (hmid : ∀ c ∈ mid, c ≠ obrace ∧ c ≠ cbrace)
    (hpost : cbrace ∉ post) :
    extractBraced (pre ++ obrace :: (mid ++ cbrace :: post))
      = some (obrace :: (mid ++ [cbrace]))
    ∧ firstBalancedObj (pre ++ obrace :: (mid ++ cbrace :: post))
      = some (obrace :: (mid ++ [cbrace])) := by
  have hd : dropUntilBrace (pre ++ obrace :: (mid ++ cbrace :: post))
      = obrace :: (mid ++ cbrace :: post) := by
    rw [dropUntilBrace_append pre _ hpre, dropUntilBrace_cons_brace]
  constructor
  · rw [extractBraced, hd]
    simp only [takeToLastClose_append mid post hpost]
    rw [if_neg (by simp)]
  · rw [firstBalancedObj, hd]
    show scanBalanced (mid ++ cbrace :: post) 1 [obrace]
      = some (obrace :: (mid ++ [cbrace]))
    rw [scanBalanced_flat mid post [obrace] hmid]
    simp

/-- Witness for the amended C6: a JSON object embedded in prose on both
sides, with no braces in the surrounding text. -/
theorem ai_extract_embedded_witness :
    extractBraced ("Here is the JSON: ".toList
        ++ obrace :: ("\"primaryIntent\":\"email\"".toList ++ cbrace :: " done".toList))
      = some (obrace :: ("\"primaryIntent\":\"email\"".toList ++ [cbrace]))
    ∧ firstBalancedObj ("Here is the JSON: ".toList
        ++ obrace :: ("\"primaryIntent\":\"email\"".toList ++ cbrace :: " done".toList))
      = some (obrace :: ("\"primaryIntent\":\"email\"".toList ++ [cbrace])) :=
  ai_extract_embedded _ _ _ (by decide) (by decide) (by decide)

/-- Counterexample to C6 as stated: on a response with a stray closing brace
in the trailing prose, the greedy regex grabs the substring from the first
opening brace to the LAST closing brace, which differs from the first
balanced JSON object. -/
theorem ai_extract_greedy_cex :
    extractBraced ("\x7b\x7d x \x7d".toList) = some ("\x7b\x7d x \x7d".toList)
    ∧ firstBalancedObj ("\x7b\x7d x \x7d".toList) = some ("\x7b\x7d".toList)
    ∧ "\x7b\x7d x \x7d".toList ≠ "\x7b\x7d".toList :=
  ⟨by decide, by decide, by decide⟩

/-! ### Router theorems -/

theorem mem_of_head_eq {α : Type} {l : List α} {r : α} (h : l.head? = some r) :
    r ∈ l := by
  cases l with
  | nil => cases h
  | cons a as =>
    simp only [List.head?_cons, Option.some.injEq] at h
    exact h ▸ List.mem_cons_self a as

/-- Every result of the keyword classifier has confidence at least 0.5
(matched candidates by the formula, the synthetic fallback by its literal 1),
hence never the falsy 0. -/
theorem keyword_confidence_ge (reg : List Skill) (msg : String) {r : RoutingResult}
    (hr : r ∈ classifyIntentKeyword reg msg) : (1 : Rat) / 2 ≤ r.confidence := by
  rw [classifyIntentKeyword] at hr
  by_cases hnil : sortDesc (reg.filterMap (skillCandidate msg)) = []
  · simp only [if_pos hnil, List.mem_singleton] at hr
    subst hr
    norm_num [kwFallbackResult]
  · simp only [if_neg hnil] at hr
    obtain ⟨sk, hs, hc⟩ := List.mem_filterMap.mp ((sortDesc_perm _).mem_iff.mp hr)
    rw [skillCandidate] at hc
    by_cases h1 : sk.enabled = true ∧ sk.id ≠ "general"
    · rw [if_pos h1] at hc
      by_cases h2 : matchedCount msg sk = 0
      · rw [if_pos h2] at hc
        cases hc
      · rw [if_neg h2] at hc
        cases hc
        exact confidence_ge_half _ _
    · rw [if_neg h1] at hc
      cases hc

/-- Claim C1 (amended): when the AI call throws or no JSON object can be
located in its response, `routeMessage` with `useAI = true` returns the
keyword top result — same skill id and confidence, reasoning marking the
fallback — provided the keyword top skill id is not the empty string (an
empty id would be replaced by `general` by the JavaScript `||` default). -/
theorem route_ai_error_falls_back (reg0 : List Skill) (fetch : FetchOutcome)
    (logO : LogOutcome) (msg chatId : String) (jp : List Char → Option ParsedJson)
    (ai : AIOutcome) (r : RoutingResult)
    (hai : ai = AIOutcome.throws
      ∨ ∃ t, ai = AIOutcome.responds t ∧ extractBraced t = none)
    (hr : (classifyIntentKeyword (effectiveRegistry reg0 fetch) msg).head? = some r)
    (hid : r.skillId ≠ "") :
    (routeMessage reg0 fetch logO msg chatId true true ai jp).result.skillId = r.skillId
    ∧ (routeMessage reg0 fetch logO msg chatId true true ai jp).result.confidence
        = r.confidence
    ∧ (routeMessage reg0 fetch logO msg chatId true true ai jp).result.reasoning
        = some "Fallback to keyword matching" := by
  have hconf : (1 : Rat) / 2 ≤ r.confidence :=
    keyword_confidence_ge _ _ (mem_of_head_eq hr)
  have hconf0 : ¬ r.confidence = 0 := by
    intro h0
    rw [h0] at hconf
    norm_num at hconf
  have hcls : classifyIntentWithAI (effectiveRegistry reg0 fetch) msg ai jp
      = keywordFallbackClassification (effectiveRegistry reg0 fetch) msg := by
    rcases hai with rfl | ⟨t, rfl, hext⟩
    · rfl
    · rw [classifyIntentWithAI]
      rw [hext]
  have hkfc : keywordFallbackClassification (effectiveRegistry reg0 fetch) msg
      = ⟨r.skillId, r.confidence, [], "Fallback to keyword matching"⟩ := by
    rw [keywordFallbackClassification, hr]
    simp only [if_neg hid, if_neg hconf0]
  refine ⟨?_, ?_, ?_⟩ <;>
    simp [routeMessage, classificationOf, hcls, hkfc]

/-- A total model of `JSON.parse` that fails on every input. -/
def jpNone : List Char → Option ParsedJson := fun _ => none

/-- Witness for the amended C1: the AI call throws on "price of nvda" and
routing returns the keyword market result at confidence 5/8. -/
theorem route_ai_error_falls_back_witness :
    (routeMessage DEFAULT_SKILLS FetchOutcome.err LogOutcome.ok "price of nvda" "c"
        true true AIOutcome.throws jpNone).result.skillId = "market"
    ∧ (routeMessage DEFAULT_SKILLS FetchOutcome.err LogOutcome.ok "price of nvda" "c"
        true true AIOutcome.throws jpNone).result.confidence = mkRat 5 8
    ∧ (routeMessage DEFAULT_SKILLS FetchOutcome.err LogOutcome.ok "price of nvda" "c"
        true true AIOutcome.throws jpNone).result.reasoning
        = some "Fallback to keyword matching" :=
  route_ai_error_falls_back DEFAULT_SKILLS FetchOutcome.err LogOutcome.ok
    "price of nvda" "c" jpNone AIOutcome.throws
    ⟨"market", mkRat 5 8, [], false, none⟩ (Or.inl rfl) (by decide) (by decide)

/-- A registry containing an enabled skill whose id is the empty string. -/
def emptyIdRegistry : List Skill :=
  [⟨"", "Unnamed", "An enabled skill registered under the empty id",
    ["x"], [], [], [], AutonomyLevel.full, true⟩]

/-- Counterexample to C1 as stated: for the registry with an empty-id skill
matching the message, the keyword top result has skill id `""`, but the
AI-failure fallback routes to `"general"` (the JavaScript `||` default), so
the routed skill id does not equal the keyword top skill id. -/
theorem route_ai_error_cex :
    (classifyIntentKeyword (effectiveRegistry emptyIdRegistry FetchOutcome.err) "x").head?.map
        RoutingResult.skillId = some ""
    ∧ (routeMessage emptyIdRegistry FetchOutcome.err LogOutcome.ok "x" "c"
        true true AIOutcome.throws jpNone).result.skillId = "general"
    ∧ ("general" : String) ≠ "" :=
  ⟨by decide, by decide, by decide⟩

/-- Claim C5 (amended): when the classifier names a skill id absent from the
registry, `routeMessage` does not throw (the model is total): it returns a
result that carries the unknown id unchanged — it is NOT replaced by the
general/default id — with `requiresApproval = false` from the failed
lookup. -/
theorem route_unknown_skill (reg0 : List Skill) (fetch : FetchOutcome)
    (logO : LogOutcome) (msg chatId : String) (useAI genAI : Bool)
    (ai : AIOutcome) (jp : List Char → Option ParsedJson)
    (h : getSkill (effectiveRegistry reg0 fetch)
        (classificationOf (effectiveRegistry reg0 fetch) msg useAI genAI ai jp).primaryIntent
      = none) :
    (routeMessage reg0 fetch logO msg chatId genAI useAI ai jp).result.skillId
      = (classificationOf (effectiveRegistry reg0 fetch) msg useAI genAI ai jp).primaryIntent
    ∧ (routeMessage reg0 fetch logO msg chatId genAI useAI ai jp).result.requiresApproval
      = false := by
  refine ⟨rfl, ?_⟩
  simp [routeMessage, h]

/-- A Gemini response consisting of exactly one JSON object naming the
unknown skill id `bogus`. -/
def bogusResponse : List Char := "\x7b\"primaryIntent\":\"bogus\"\x7d".toList

/-- `JSON.parse` restricted to `bogusResponse`: on exactly that string it
yields the object with `primaryIntent = "bogus"` and no other fields, as
the real `JSON.parse` would. -/
def jpBogus : List Char → Option ParsedJson :=
  fun t =>
    if t = bogusResponse
    then some ⟨JsField.val "bogus", JsField.absent, JsField.absent, JsField.absent⟩
    else none

/-- Witness for the amended C5. -/
theorem route_unknown_skill_witness :
    (routeMessage DEFAULT_SKILLS FetchOutcome.err LogOutcome.ok "hello" "c"
        true true (AIOutcome.responds bogusResponse) jpBogus).result.skillId
      = (classificationOf (effectiveRegistry DEFAULT_SKILLS FetchOutcome.err) "hello"
          true true (AIOutcome.responds bogusResponse) jpBogus).primaryIntent
    ∧ (routeMessage DEFAULT_SKILLS FetchOutcome.err LogOutcome.ok "hello" "c"
        true true (AIOutcome.responds bogusResponse) jpBogus).result.requiresApproval
      = false :=
  route_unknown_skill DEFAULT_SKILLS FetchOutcome.err LogOutcome.ok "hello" "c"
    true true (AIOutcome.responds bogusResponse) jpBogus (by decide)

/-- Counterexample to C5 as stated: the classifier names `bogus`, which is
not in the registry, and the routed result carries `bogus` — it does not
fall back to the `general` skill id. -/
theorem route_unknown_skill_cex :
    (routeMessage DEFAULT_SKILLS FetchOutcome.err LogOutcome.ok "hello" "c"
        true true (AIOutcome.responds bogusResponse) jpBogus).result.skillId = "bogus"
    ∧ getSkill DEFAULT_SKILLS "bogus" = none
    ∧ ("bogus" : String) ≠ "general" :=
  ⟨by decide, by decide, by decide⟩

end SparkyBot
